import Mathlib

/-!
Verification of the event and image marshalling layer of the `atk` Tk binding
(`tk/event.go`, `tk/image.go`).  Go strings are modelled as lists of byte
values (`GoStr`), so that behaviour on invalid UTF-8 and on the interpreter's
sentinel values is captured faithfully.  Interpreter, filesystem and image
codec are external collaborators and appear as oracle parameters; the calls
made to them are recorded as explicit operation traces.
-/

namespace Atk

/-- Go strings modelled as lists of byte values (0..255). -/
abbrev GoStr := List Nat

/-! ## strconv.ParseInt, base 10, bitSize 0 (64-bit int)

`Event.toInt` / `Event.toInt64` call `strconv.ParseInt(s, 10, 0)` and drop the
error.  `ParseInt` delegates to `ParseUint` after stripping one optional sign;
a syntax failure returns 0, while an out-of-range value saturates at the
64-bit boundary.  The model mirrors the Go stdlib control flow. -/

/-- Outcome channel of Go `strconv` parsing: `ErrSyntax` or `ErrRange`. -/
inductive NumErr where
  | synErr : NumErr
  | rangeErr : NumErr
deriving DecidableEq

/-- Go `lower(c) = c | ('x'-'X')`: maps ASCII upper case to lower case. -/
def goLower (c : Nat) : Nat := c ||| 0x20

/-- `cutoff` for base 10 in Go `ParseUint`: smallest n with `n*10` overflowing
uint64, i.e. `maxUint64/10 + 1`. -/
def parseUintCutoff : Nat := 1844674407370955162

/-- `maxVal` for bitSize 64 in Go `ParseUint`: `2^64 - 1`. -/
def maxUint64 : Nat := 18446744073709551615

/-- The digit-accumulation loop of Go `strconv.ParseUint` (base 10,
bitSize 64).  Returns the accumulated value together with the error Go would
report: the first non-digit byte yields `(0, ErrSyntax)`; overflow past
`maxUint64` yields `(maxUint64, ErrRange)` and stops. -/
def parseUintLoop : List Nat → Nat → Nat × Option NumErr
  | [], n => (n, none)
  | c :: rest, n =>
    let d : Nat :=
      if 0x30 ≤ c ∧ c ≤ 0x39 then c - 0x30
      else if 0x61 ≤ goLower c ∧ goLower c ≤ 0x7A then goLower c - 0x61 + 10
      else 255
    if 10 ≤ d then (0, some .synErr)
    else if parseUintCutoff ≤ n then (maxUint64, some .rangeErr)
    else
      let n1 := n * 10 + d
      if maxUint64 < n1 then (maxUint64, some .rangeErr)
      else parseUintLoop rest n1

/-- Go `strconv.ParseUint(s, 10, 64)`: empty input is a syntax error,
otherwise run the digit loop from 0. -/
def goParseUint10 (s : GoStr) : Nat × Option NumErr :=
  if s = [] then (0, some .synErr) else parseUintLoop s 0

/-- `1 << 63`: the cutoff Go `ParseInt` uses for a 64-bit signed result. -/
def int64Cutoff : Nat := 9223372036854775808

/-- Go `strconv.ParseInt(s, 10, 0)` on a 64-bit platform, keeping only the
returned value (the caller discards the error): strip one `+`/`-`, parse the
rest as unsigned, return 0 on syntax error and saturate at `2^63 - 1` /
`-2^63` on range overflow. -/
def goParseInt10 (s : GoStr) : Int :=
  if s = [] then 0
  else
    let neg := s.head? = some 0x2D
    let s' := if s.head? = some 0x2B ∨ s.head? = some 0x2D then s.tail else s
    let p := goParseUint10 s'
    if p.2 = some .synErr then 0
    else if ¬neg ∧ int64Cutoff ≤ p.1 then (int64Cutoff : Int) - 1
    else if neg ∧ int64Cutoff < p.1 then -(int64Cutoff : Int)
    else if neg then -(p.1 : Int) else (p.1 : Int)

/-! ## unicode/utf8.DecodeRuneInString

`Event.parser` decodes the first rune of the key text with
`utf8.DecodeRuneInString` and discards the size.  The model mirrors the Go
stdlib decoder: its `first` table classifies the leading byte (ASCII, 2-, 3-
or 4-byte sequence, or invalid) and the accept ranges for the second byte
reject overlong encodings and surrogates.  Failure returns `RuneError`
(U+FFFD), never the zero rune. -/

/-- `utf8.RuneError` = U+FFFD, the replacement character. -/
def runeError : Nat := 0xFFFD

/-- Go `utf8.DecodeRuneInString` over byte lists: returns the decoded code
point and its byte size, or `(RuneError, 0)` on empty input and
`(RuneError, 1)` on an invalid encoding. -/
def decodeRuneInString (s : GoStr) : Nat × Nat :=
  match s with
  | [] => (runeError, 0)
  | b0 :: t =>
    if b0 ≤ 0x7F then (b0, 1)
    else if 0xC2 ≤ b0 ∧ b0 ≤ 0xDF then
      match t with
      | [] => (runeError, 1)
      | b1 :: _ =>
        if 0x80 ≤ b1 ∧ b1 ≤ 0xBF then ((b0 - 0xC0) * 64 + (b1 - 0x80), 2)
        else (runeError, 1)
    else if 0xE0 ≤ b0 ∧ b0 ≤ 0xEF then
      match t with
      | [] => (runeError, 1)
      | b1 :: t2 =>
        let lo := if b0 = 0xE0 then 0xA0 else 0x80
        let hi := if b0 = 0xED then 0x9F else 0xBF
        if lo ≤ b1 ∧ b1 ≤ hi then
          match t2 with
          | [] => (runeError, 1)
          | b2 :: _ =>
            if 0x80 ≤ b2 ∧ b2 ≤ 0xBF then
              ((b0 - 0xE0) * 4096 + (b1 - 0x80) * 64 + (b2 - 0x80), 3)
            else (runeError, 1)
        else (runeError, 1)
    else if 0xF0 ≤ b0 ∧ b0 ≤ 0xF4 then
      match t with
      | [] => (runeError, 1)
      | b1 :: t2 =>
        let lo := if b0 = 0xF0 then 0x90 else 0x80
        let hi := if b0 = 0xF4 then 0x8F else 0xBF
        if lo ≤ b1 ∧ b1 ≤ hi then
          match t2 with
          | [] => (runeError, 1)
          | b2 :: t3 =>
            if 0x80 ≤ b2 ∧ b2 ≤ 0xBF then
              match t3 with
              | [] => (runeError, 1)
              | b3 :: _ =>
                if 0x80 ≤ b3 ∧ b3 ≤ 0xBF then
                  ((b0 - 0xF0) * 262144 + (b1 - 0x80) * 4096 +
                    (b2 - 0x80) * 64 + (b3 - 0x80), 4)
                else (runeError, 1)
            else (runeError, 1)
        else (runeError, 1)
    else (runeError, 1)

/-! ## The Event record and its parser (tk/event.go) -/

/-- The `Event` struct of `tk/event.go`.  `Type` is renamed `type'`-free as
`etype` (Lean keyword); `Widget` is the result of the registry lookup,
modelled as `Option Nat` (a widget handle, `none` when resolution fails);
`KeyRune` holds the non-negative code point Go stores in the `rune` field. -/
structure Event where
  etype : Int
  Synthetic : Bool
  Widget : Option Nat
  Timestamp : Int
  MouseButton : Int
  PosX : Int
  PosY : Int
  GlobalPosX : Int
  GlobalPosY : Int
  WheelDelta : Int
  KeyCode : Int
  KeySym : GoStr
  KeyText : GoStr
  KeyRune : Nat
  UserData : GoStr
  Focus : Bool
  Width : Int
  Height : Int
  Mode : GoStr
  OverrideRedirect : GoStr
  Place : GoStr
  State : GoStr
deriving DecidableEq

/-- The byte string `"??"`, the interpreter's not-applicable sentinel. -/
def qqStr : GoStr := [0x3F, 0x3F]

/-- `Event.toInt`: `strconv.ParseInt(s, 10, 0)` with the error dropped. -/
def Event.toInt (s : GoStr) : Int := goParseInt10 s

/-- `Event.toInt64`: identical to `toInt` on a 64-bit platform. -/
def Event.toInt64 (s : GoStr) : Int := goParseInt10 s

/-- `Event.toBool`: true exactly on the byte string `"1"`. -/
def Event.toBool (s : GoStr) : Bool := s = [0x31]

/-- `Event.toString`: the sentinel `"??"` becomes the empty string, any other
string passes through unchanged. -/
def Event.toString (s : GoStr) : GoStr := if s = qqStr then [] else s

/-- `Event.parser` from `tk/event.go`: fills every field of the receiver from
the 21 positional substitution values.  The receiver `e` is the prior state of
the (mutated-in-place) Go struct; `fw` is the widget registry lookup
(`FindWidget`, defined outside these sources, modelled as an oracle).  Go
panics on an index out of range, which happens exactly when fewer than 21
arguments arrive; this is modelled by `none`.  `KeyRune` is assigned only when
the normalized key text is non-empty, otherwise the prior value persists. -/
def Event.parser (fw : GoStr → Option Nat) (e : Event) (args : List GoStr) :
    Option Event :=
  if args.length < 21 then none
  else
    let ts := Event.toInt64 (args.getD 3 [])
    let keyText := Event.toString (args.getD 10 [])
    some
      { etype := Event.toInt (args.getD 0 [])
        Synthetic := Event.toBool (args.getD 1 [])
        Widget := fw (args.getD 2 [])
        Timestamp := if ts < 0 then 0 else ts
        MouseButton := Event.toInt (args.getD 4 [])
        PosX := Event.toInt (args.getD 5 [])
        PosY := Event.toInt (args.getD 6 [])
        WheelDelta := Event.toInt (args.getD 7 [])
        KeyCode := Event.toInt (args.getD 8 [])
        KeySym := Event.toString (args.getD 9 [])
        KeyText := keyText
        KeyRune := if keyText = [] then e.KeyRune else (decodeRuneInString keyText).1
        UserData := Event.toString (args.getD 11 [])
        Focus := Event.toBool (args.getD 12 [])
        Width := Event.toInt (args.getD 13 [])
        Height := Event.toInt (args.getD 14 [])
        Mode := Event.toString (args.getD 15 [])
        OverrideRedirect := Event.toString (args.getD 16 [])
        Place := Event.toString (args.getD 17 [])
        State := Event.toString (args.getD 18 [])
        GlobalPosX := Event.toInt (args.getD 19 [])
        GlobalPosY := Event.toInt (args.getD 20 []) }

/-! ## Event syntax predicates and binding registration (tk/event.go) -/

/-- `IsEvent`: `strings.HasPrefix(event, "<") && strings.HasSuffix(event, ">")`. -/
def IsEvent (event : GoStr) : Bool :=
  ([0x3C] : GoStr).isPrefixOf event && ([0x3E] : GoStr).isSuffixOf event

/-- `IsVirtualEvent`: prefix `"<<"` and suffix `">>"`. -/
def IsVirtualEvent (event : GoStr) : Bool :=
  ([0x3C, 0x3C] : GoStr).isPrefixOf event && ([0x3E, 0x3E] : GoStr).isSuffixOf event

/-- The fixed substitution template `Event.params`:
`"%T %E %W %t %b %x %y %D %k %K %A %d %f %w %h %m %o %p %s %X %Y"`. -/
def eventParams : GoStr :=
  [0x25, 0x54, 0x20, 0x25, 0x45, 0x20, 0x25, 0x57, 0x20, 0x25, 0x74, 0x20,
   0x25, 0x62, 0x20, 0x25, 0x78, 0x20, 0x25, 0x79, 0x20, 0x25, 0x44, 0x20,
   0x25, 0x6B, 0x20, 0x25, 0x4B, 0x20, 0x25, 0x41, 0x20, 0x25, 0x64, 0x20,
   0x25, 0x66, 0x20, 0x25, 0x77, 0x20, 0x25, 0x68, 0x20, 0x25, 0x6D, 0x20,
   0x25, 0x6F, 0x20, 0x25, 0x70, 0x20, 0x25, 0x73, 0x20, 0x25, 0x58, 0x20,
   0x25, 0x59]

/-- The byte string `"bind "`. -/
def bindWord : GoStr := [0x62, 0x69, 0x6E, 0x64, 0x20]

/-- The script built by `addEventHelper`:
`fmt.Sprintf("bind %v %v \x7b+%v %v\x7d", tag, event, fnid, ev.params())`.
The handler block opens with `\x7b+`, the Tk append marker. -/
def addEventHelperScript (tag event fnid : GoStr) : GoStr :=
  bindWord ++ tag ++ [0x20] ++ event ++ [0x20, 0x7B, 0x2B] ++ fnid ++ [0x20] ++
    eventParams ++ [0x7D]

/-- The script built by `bindEventHelper` (the replace-form helper, not used
by `BindEvent`): `fmt.Sprintf("bind %v %v \x7b%v %v\x7d", ...)` — no `+`. -/
def bindEventHelperScript (tag event fnid : GoStr) : GoStr :=
  bindWord ++ tag ++ [0x20] ++ event ++ [0x20, 0x7B] ++ fnid ++ [0x20] ++
    eventParams ++ [0x7D]

/-- Does the byte sequence `pat` occur contiguously inside `s`. -/
def containsSeq (pat : GoStr) : GoStr → Bool
  | [] => pat.isPrefixOf []
  | c :: t => pat.isPrefixOf (c :: t) || containsSeq pat t

/-- Tk semantics of a `bind` script argument: a handler block that opens with
`+` augments (appends to) the existing binding instead of replacing it.  A
script contains the append marker when the two-byte sequence `\x7b+` occurs
in it. -/
def bindScriptAppends (script : GoStr) : Bool :=
  containsSeq [0x7B, 0x2B] script

/-- One interpreter interaction performed by the binding layer. -/
inductive InterpOp where
  | createAction : GoStr → InterpOp
  | evalScript : GoStr → InterpOp
deriving DecidableEq

/-- The `ErrInvalid` error value of the tk package. -/
inductive TkErr where
  | errInvalid : TkErr
deriving DecidableEq

/-- `BindEvent` from `tk/event.go`: an empty tag or a non-bracketed event
string returns `ErrInvalid` before any interpreter interaction; otherwise a
fresh action id (`fnid`, produced by `makeBindEventId` outside these sources
and therefore passed in) is registered as an interpreter action and the
append-form `bind` script of `addEventHelper` is evaluated.  The result
carries the ordered list of interpreter interactions. -/
def BindEvent (tag event fnid : GoStr) : Except TkErr (List InterpOp) :=
  if tag = [] ∨ ¬ IsEvent event then .error .errInvalid
  else .ok [.createAction fnid, .evalScript (addEventHelperScript tag event fnid)]

/-! ## Reference characterization of UTF-8 (for the KeyRune claim)

Written from the spec's words — "decoded as the first Unicode code point" —
independently of the decoder above: a scalar value is valid when it is at
most U+10FFFF and not a surrogate, and `utf8Encode` is its standard UTF-8
byte sequence. -/

/-- A Unicode scalar value: at most U+10FFFF and not a surrogate. -/
def ValidCP (c : Nat) : Prop :=
  c ≤ 0x10FFFF ∧ ¬ (0xD800 ≤ c ∧ c ≤ 0xDFFF)

instance (c : Nat) : Decidable (ValidCP c) := by
  unfold ValidCP; infer_instance

/-- Standard UTF-8 encoding of a scalar value. -/
def utf8Encode (c : Nat) : GoStr :=
  if c ≤ 0x7F then [c]
  else if c ≤ 0x7FF then [0xC0 + c / 64, 0x80 + c % 64]
  else if c ≤ 0xFFFF then
    [0xE0 + c / 4096, 0x80 + (c / 64) % 64, 0x80 + c % 64]
  else
    [0xF0 + c / 262144, 0x80 + (c / 4096) % 64, 0x80 + (c / 64) % 64,
     0x80 + c % 64]

/-! ## Reference characterization of decimal numerals (for the toInt claim) -/

/-- Is the byte an ASCII decimal digit. -/
def isDigit (c : Nat) : Bool := 0x30 ≤ c ∧ c ≤ 0x39

/-- Numeric value of a digit string, most significant first. -/
def digitsVal (l : GoStr) : Nat := l.foldl (fun n c => n * 10 + (c - 0x30)) 0

/-- Strip one leading `+`/`-`; returns the sign and the remaining bytes. -/
def stripSign (s : GoStr) : Bool × GoStr :=
  match s with
  | [] => (false, [])
  | c :: r =>
    if c = 0x2B then (false, r)
    else if c = 0x2D then (true, r)
    else (false, c :: r)

/-- The string is a well-formed decimal numeral denoting the integer `v`:
an optional sign followed by at least one digit. -/
def DenotesInt (s : GoStr) (v : Int) : Prop :=
  (stripSign s).2 ≠ [] ∧ (∀ c ∈ (stripSign s).2, isDigit c = true) ∧
    v = if (stripSign s).1 then -(digitsVal (stripSign s).2 : Int)
        else (digitsVal (stripSign s).2 : Int)

instance (s : GoStr) (v : Int) : Decidable (DenotesInt s v) := by
  unfold DenotesInt; infer_instance

/-! ## Image facade (tk/image.go)

`LoadImage` interacts with three collaborators: the OS (`os.Open`), the image
codec (`image.Decode`) and the interpreter (`NewImage`, i.e. `image create
photo` + `FindPhoto`, plus `SetImage`/`PutImage`).  They are modelled as
oracle parameters, and every collaborator call is recorded in an operation
trace; file handles, decoded buffers and photo handles are opaque numbers. -/

/-- An `ImageOpt` key/value pair (values opaquely stringified). -/
structure ImageOpt where
  key : GoStr
  value : GoStr
deriving DecidableEq

/-- One collaborator interaction performed by `LoadImage`. -/
inductive ImgOp where
  | openFile : GoStr → ImgOp
  | decodeFile : Nat → ImgOp
  | createPhoto : List ImageOpt → ImgOp
  | putImage : Nat → ImgOp
deriving DecidableEq

/-- The failure modes `LoadImage` can surface: `os.ErrInvalid` on an empty
path, a propagated open or decode error, or the `"NewImage failed"` error. -/
inductive LoadErr where
  | osErrInvalid : LoadErr
  | openErr : Nat → LoadErr
  | decodeErr : Nat → LoadErr
  | newImageFailed : LoadErr
deriving DecidableEq

/-- The byte string `".gif"`. -/
def gifExt : GoStr := [0x2E, 0x67, 0x69, 0x66]

/-- The byte string `"file"` (the native-loader creation option key). -/
def fileKey : GoStr := [0x66, 0x69, 0x6C, 0x65]

/-- Scanning helper for `filepath.Ext`: walks the reversed path, accumulating
the bytes already passed (in original order); stops at the first `.` (the
extension starts there) or the first `/` (no extension in the last element). -/
def extScan : List Nat → GoStr → GoStr
  | [], _ => []
  | c :: rest, acc =>
    if c = 0x2F then []
    else if c = 0x2E then c :: acc
    else extScan rest (c :: acc)

/-- Go `filepath.Ext` on a Unix path: the suffix of the final path element
beginning at its last dot, empty when there is no dot. -/
def goFilepathExt (path : GoStr) : GoStr := extScan path.reverse []

/-- `LoadImage` from `tk/image.go`.  `osOpen` models `os.Open` (path to file
handle or error), `imageDecode` models `image.Decode` (handle to decoded
buffer or error), `newImage` models `NewImage` (creation options to photo
handle, `nil` on failure).  An empty path fails with `os.ErrInvalid` before
any collaborator call; a `.gif` path goes to the interpreter's native loader
by appending a `file` creation option and never touches the codec; any other
path is opened and decoded locally and the decoded buffer is pushed into the
freshly created photo.  Open and decode errors propagate as-is.  The result
pairs the collaborator-call trace with the returned value (the photo handle
of the created image) or error. -/
def LoadImage (osOpen : GoStr → Except Nat Nat) (imageDecode : Nat → Except Nat Nat)
    (newImage : List ImageOpt → Option Nat) (file : GoStr)
    (options : List ImageOpt) : List ImgOp × Except LoadErr Nat :=
  if file = [] then ([], .error .osErrInvalid)
  else if goFilepathExt file = gifExt then
    let options' := options ++ [⟨fileKey, file⟩]
    match newImage options' with
    | none => ([.createPhoto options'], .error .newImageFailed)
    | some pid => ([.createPhoto options'], .ok pid)
  else
    match osOpen file with
    | .error e => ([.openFile file], .error (.openErr e))
    | .ok h =>
      match imageDecode h with
      | .error e => ([.openFile file, .decodeFile h], .error (.decodeErr e))
      | .ok img =>
        match newImage options with
        | none =>
          ([.openFile file, .decodeFile h, .createPhoto options],
            .error .newImageFailed)
        | some pid =>
          ([.openFile file, .decodeFile h, .createPhoto options, .putImage img],
            .ok pid)

/-! ## Concrete sample values used by witnesses and counterexamples -/

/-- The byte string `"<Key>"`. -/
def evKey : GoStr := [0x3C, 0x4B, 0x65, 0x79, 0x3E]

/-- The byte string `"<Button-1>"`. -/
def evButton1 : GoStr := [0x3C, 0x42, 0x75, 0x74, 0x74, 0x6F, 0x6E, 0x2D, 0x31, 0x3E]

/-- The byte string `"Button-1"` (no brackets). -/
def evButton1Bare : GoStr := [0x42, 0x75, 0x74, 0x74, 0x6F, 0x6E, 0x2D, 0x31]

/-- The byte string `"<<Paste>>"`. -/
def evPasteVirtual : GoStr := [0x3C, 0x3C, 0x50, 0x61, 0x73, 0x74, 0x65, 0x3E, 0x3E]

/-- The byte string `"<Paste>"`. -/
def evPastePhysical : GoStr := [0x3C, 0x50, 0x61, 0x73, 0x74, 0x65, 0x3E]

/-- The zero value of the `Event` struct (Go `var ev Event`). -/
def zeroEvent : Event where
  etype := 0
  Synthetic := false
  Widget := none
  Timestamp := 0
  MouseButton := 0
  PosX := 0
  PosY := 0
  GlobalPosX := 0
  GlobalPosY := 0
  WheelDelta := 0
  KeyCode := 0
  KeySym := []
  KeyText := []
  KeyRune := 0
  UserData := []
  Focus := false
  Width := 0
  Height := 0
  Mode := []
  OverrideRedirect := []
  Place := []
  State := []

/-- An `Event` state left behind by an earlier dispatch: `KeyRune` holds
`'a'` (0x61). -/
def staleKeyEvent : Event := { zeroEvent with KeyRune := 0x61 }

/-- 21 substitution fields, all carrying the `"??"` sentinel (a dispatch
whose key-text field is not applicable). -/
def qq21 : List GoStr := List.replicate 21 qqStr

/-- 21 substitution fields whose key-text field (position 10) is the single
byte 0xFF — not valid UTF-8. -/
def badKeyArgs : List GoStr :=
  List.replicate 10 qqStr ++ [[0xFF]] ++ List.replicate 10 qqStr

/-- The byte string of twenty `'9'`s: a well-formed decimal numeral whose
value exceeds the 64-bit signed range. -/
def twentyNines : GoStr := List.replicate 20 0x39

/-- The byte string `"a.gif"`. -/
def gifFile : GoStr := [0x61, 0x2E, 0x67, 0x69, 0x66]

/-- The byte string `"a.png"`. -/
def pngFile : GoStr := [0x61, 0x2E, 0x70, 0x6E, 0x67]

/-! # Theorems -/

/-! ## Shared helper lemmas -/

lemma singleton_prefix_iff (a : Nat) (s : GoStr) :
    ([a] : GoStr).isPrefixOf s = true ↔ ∃ t, s = a :: t := by
  rw [List.isPrefixOf_iff_prefix]
  constructor
  · rintro ⟨t, rfl⟩; exact ⟨t, rfl⟩
  · rintro ⟨t, rfl⟩; exact ⟨t, rfl⟩

lemma pair_prefix_iff (a b : Nat) (s : GoStr) :
    ([a, b] : GoStr).isPrefixOf s = true ↔ ∃ t, s = a :: b :: t := by
  rw [List.isPrefixOf_iff_prefix]
  constructor
  · rintro ⟨t, rfl⟩; exact ⟨t, rfl⟩
  · rintro ⟨t, rfl⟩; exact ⟨t, rfl⟩

lemma singleton_suffix_iff (a : Nat) (s : GoStr) :
    ([a] : GoStr).isSuffixOf s = true ↔ ∃ t, s = t ++ [a] := by
  rw [List.isSuffixOf_iff_suffix]
  constructor
  · rintro ⟨t, rfl⟩; exact ⟨t, rfl⟩
  · rintro ⟨t, rfl⟩; exact ⟨t, rfl⟩

lemma pair_suffix_iff (a b : Nat) (s : GoStr) :
    ([a, b] : GoStr).isSuffixOf s = true ↔ ∃ t, s = t ++ [a, b] := by
  rw [List.isSuffixOf_iff_suffix]
  constructor
  · rintro ⟨t, rfl⟩; exact ⟨t, rfl⟩
  · rintro ⟨t, rfl⟩; exact ⟨t, rfl⟩

/-! ## C7: bracket syntax of IsEvent and IsVirtualEvent -/

/-- C7: for every string `s`, `IsEvent s` holds exactly when `s` starts with
`"<"` and ends with `">"`, and `IsVirtualEvent s` exactly when `s` starts
with `"<<"` and ends with `">>"`; `IsEvent "<Button-1>"` is true,
`IsEvent "Button-1"` is false, `IsVirtualEvent "<<Paste>>"` is true and
`IsVirtualEvent "<Paste>"` is false; no stronger validity check is
performed. -/
theorem claim7_event_syntax (s : GoStr) :
    (IsEvent s = true ↔ ((∃ t, s = 0x3C :: t) ∧ ∃ t, s = t ++ [0x3E])) ∧
    (IsVirtualEvent s = true ↔
      ((∃ t, s = 0x3C :: 0x3C :: t) ∧ ∃ t, s = t ++ [0x3E, 0x3E])) ∧
    IsEvent evButton1 = true ∧ IsEvent evButton1Bare = false ∧
    IsVirtualEvent evPasteVirtual = true ∧ IsVirtualEvent evPastePhysical = false := by
  refine ⟨?_, ?_, by decide, by decide, by decide, by decide⟩
  · rw [IsEvent, Bool.and_eq_true, singleton_prefix_iff, singleton_suffix_iff]
  · rw [IsVirtualEvent, Bool.and_eq_true, pair_prefix_iff, pair_suffix_iff]

/-! ## C10: every virtual event string is accepted as a physical event -/

/-- C10: for every string `s`, `IsVirtualEvent s` implies `IsEvent s`: the
double-bracket check subsumes the single-bracket check, so any virtual-event
string passes every gate that only requires `IsEvent`. -/
theorem claim10_virtual_implies_event (s : GoStr) (h : IsVirtualEvent s = true) :
    IsEvent s = true := by
  rw [IsVirtualEvent, Bool.and_eq_true, pair_prefix_iff, pair_suffix_iff] at h
  obtain ⟨⟨t₁, rfl⟩, t₂, he⟩ := h
  rw [IsEvent, Bool.and_eq_true, singleton_prefix_iff, singleton_suffix_iff]
  constructor
  · exact ⟨0x3C :: t₁, rfl⟩
  · refine ⟨t₂ ++ [0x3E], ?_⟩
    rw [he, List.append_assoc]
    rfl

/-- Witness for C10 at the concrete input `"<<Paste>>"`. -/
theorem claim10_witness :
    IsVirtualEvent evPasteVirtual = true ∧ IsEvent evPasteVirtual = true :=
  ⟨by decide, claim10_virtual_implies_event evPasteVirtual (by decide)⟩

/-! ## C5: totality of the parser on 21-field arrays -/

/-- C5: for every array of exactly 21 strings, the event parser terminates
normally and produces an event record — no input array reaches the
out-of-range (panic) case, whatever the string contents. -/
theorem claim5_parser_total (fw : GoStr → Option Nat) (e : Event)
    (args : List GoStr) (h : args.length = 21) :
    (Event.parser fw e args).isSome = true := by
  rw [Event.parser, if_neg (by omega)]
  rfl

/-- Witness for C5 at a concrete 21-field array. -/
theorem claim5_witness :
    (Event.parser (fun _ => none) zeroEvent qq21).isSome = true :=
  claim5_parser_total (fun _ => none) zeroEvent qq21 (by decide)

/-! ## C6: sentinel normalization of string-typed fields -/

/-- C6: `Event.toString`, used for every string-typed field of the parser,
maps the sentinel `"??"` to the empty string and stores every other string
unchanged; the string-typed fields of the parsed record (keysym, keytext,
userdata, mode, override-redirect, place, state) are exactly the normalized
input positions 9, 10, 11, 15, 16, 17 and 18. -/
theorem claim6_sentinel_normalization (s : GoStr) (fw : GoStr → Option Nat)
    (e : Event) (args : List GoStr) (h : args.length = 21) :
    Event.toString s = (if s = qqStr then [] else s) ∧
    ∀ r, Event.parser fw e args = some r →
      r.KeySym = Event.toString (args.getD 9 []) ∧
      r.KeyText = Event.toString (args.getD 10 []) ∧
      r.UserData = Event.toString (args.getD 11 []) ∧
      r.Mode = Event.toString (args.getD 15 []) ∧
      r.OverrideRedirect = Event.toString (args.getD 16 []) ∧
      r.Place = Event.toString (args.getD 17 []) ∧
      r.State = Event.toString (args.getD 18 []) := by
  refine ⟨rfl, fun r hr => ?_⟩
  rw [Event.parser, if_neg (by omega)] at hr
  cases hr
  exact ⟨rfl, rfl, rfl, rfl, rfl, rfl, rfl⟩

/-- Witness for C6 at the string `"A"` and a concrete 21-field array. -/
theorem claim6_witness :
    Event.toString [0x41] = (if ([0x41] : GoStr) = qqStr then [] else [0x41]) ∧
    ∀ r, Event.parser (fun _ => none) zeroEvent qq21 = some r →
      r.KeySym = Event.toString (qq21.getD 9 []) ∧
      r.KeyText = Event.toString (qq21.getD 10 []) ∧
      r.UserData = Event.toString (qq21.getD 11 []) ∧
      r.Mode = Event.toString (qq21.getD 15 []) ∧
      r.OverrideRedirect = Event.toString (qq21.getD 16 []) ∧
      r.Place = Event.toString (qq21.getD 17 []) ∧
      r.State = Event.toString (qq21.getD 18 []) :=
  claim6_sentinel_normalization [0x41] (fun _ => none) zeroEvent qq21 (by decide)

/-! ## C8: validation failures of BindEvent precede interpreter contact -/

/-- C8: for every callback, `BindEvent` with an empty tag or with an event
string not wrapped in angle brackets returns `ErrInvalid` immediately: no
action is registered and no script is evaluated (the success trace of
interpreter operations is never produced), so interpreter state is unchanged
on this error. -/
theorem claim8_invalid_bind (tag event fnid : GoStr)
    (h : tag = [] ∨ IsEvent event = false) :
    BindEvent tag event fnid = .error .errInvalid ∧
    ∀ ops : List InterpOp, BindEvent tag event fnid ≠ .ok ops := by
  have hc : tag = [] ∨ ¬ IsEvent event = true := by
    rcases h with h | h
    · exact Or.inl h
    · exact Or.inr (by simp [h])
  rw [BindEvent, if_pos hc]
  exact ⟨rfl, fun ops => by simp⟩

/-- Witness for C8: `BindEvent("", "<Key>", fn)` and
`BindEvent("t", "Button-1", fn)` both fail with `ErrInvalid`. -/
theorem claim8_witness :
    BindEvent [] evKey [0x66] = .error .errInvalid ∧
    BindEvent [0x74] evButton1Bare [0x66] = .error .errInvalid :=
  ⟨(claim8_invalid_bind [] evKey [0x66] (Or.inl rfl)).1,
   (claim8_invalid_bind [0x74] evButton1Bare [0x66] (Or.inr (by decide))).1⟩

/-! ## C1: BindEvent arms an append-form bind script, not a replace-form one -/

lemma containsSeq_of_isPrefixOf (pat s : GoStr) (h : pat.isPrefixOf s = true) :
    containsSeq pat s = true := by
  cases s with
  | nil => simpa [containsSeq] using h
  | cons c t => simp [containsSeq, h]

lemma containsSeq_self_append (pat rest : GoStr) :
    containsSeq pat (pat ++ rest) = true :=
  containsSeq_of_isPrefixOf _ _
    (by rw [List.isPrefixOf_iff_prefix]; exact ⟨rest, rfl⟩)

lemma containsSeq_append_left (pat l r : GoStr) (h : containsSeq pat r = true) :
    containsSeq pat (l ++ r) = true := by
  induction l with
  | nil => simpa using h
  | cons c t ih => simp [containsSeq, ih]

lemma containsSeq_append_right (pat l r : GoStr) (h : containsSeq pat l = true) :
    containsSeq pat (l ++ r) = true := by
  induction l with
  | nil =>
    rw [containsSeq, List.isPrefixOf_iff_prefix, List.prefix_nil] at h
    subst h
    exact containsSeq_of_isPrefixOf _ _
      (by rw [List.isPrefixOf_iff_prefix]; exact ⟨r, rfl⟩)
  | cons c t ih =>
    rw [containsSeq] at h
    rw [List.cons_append, containsSeq]
    rcases Bool.or_eq_true_iff.mp h with h | h
    · rw [List.isPrefixOf_iff_prefix] at h
      have : pat.isPrefixOf (c :: t ++ r) = true := by
        rw [List.isPrefixOf_iff_prefix]
        exact h.trans (List.prefix_append _ _)
      rw [List.cons_append] at this
      rw [this, Bool.true_or]
    · rw [ih h, Bool.or_true]

lemma appendScript_has_append_marker (tag event fnid : GoStr) :
    bindScriptAppends (addEventHelperScript tag event fnid) = true := by
  rw [bindScriptAppends, addEventHelperScript]
  apply containsSeq_append_right
  apply containsSeq_append_right
  apply containsSeq_append_right
  apply containsSeq_append_right
  apply containsSeq_append_left
  decide

/-- C1 refuted as stated: at the concrete inputs tag `"t"`, event `"<Key>"`
and action id `"f"`, the script `BindEvent` evaluates is the append-form
script of `addEventHelper`, whose handler block opens with the Tk `+`
(augment) marker; it is not the replace-form script of `bindEventHelper`,
which carries no such marker.  The armed bind command therefore appends an
additional handler instead of replacing the prior binding. -/
theorem claim1_counterexample :
    BindEvent [0x74] evKey [0x66] =
      .ok [.createAction [0x66],
           .evalScript (addEventHelperScript [0x74] evKey [0x66])] ∧
    bindScriptAppends (addEventHelperScript [0x74] evKey [0x66]) = true ∧
    bindScriptAppends (bindEventHelperScript [0x74] evKey [0x66]) = false ∧
    addEventHelperScript [0x74] evKey [0x66] ≠
      bindEventHelperScript [0x74] evKey [0x66] :=
  ⟨rfl, by decide, by decide, by decide⟩

/-- C1 amended: for every non-empty tag and bracket-wrapped event string, a
successful `BindEvent` call registers exactly one interpreter action and arms
a bind command whose script opens its handler block with `+` — the Tk append
marker — so it appends an additional handler to any prior binding on that
tag+event pair rather than replacing it. -/
theorem claim1_amended (tag event fnid : GoStr) (h1 : tag ≠ [])
    (h2 : IsEvent event = true) :
    BindEvent tag event fnid =
      .ok [.createAction fnid, .evalScript (addEventHelperScript tag event fnid)] ∧
    bindScriptAppends (addEventHelperScript tag event fnid) = true := by
  constructor
  · rw [BindEvent, if_neg]
    simp [h1, h2]
  · exact appendScript_has_append_marker tag event fnid

/-- Witness for C1 (amended) at tag `"t"`, event `"<Button-1>"`, id `"f"`. -/
theorem claim1_witness :
    BindEvent [0x74] evButton1 [0x66] =
      .ok [.createAction [0x66],
           .evalScript (addEventHelperScript [0x74] evButton1 [0x66])] ∧
    bindScriptAppends (addEventHelperScript [0x74] evButton1 [0x66]) = true :=
  claim1_amended [0x74] evButton1 [0x66] (by decide) (by decide)

/-! ## C2: the Event record is reused across dispatches; KeyRune can leak -/

/-- C2 refuted as stated: the `Event` struct is allocated once per binding
(`var ev Event` in `BindEvent`) and mutated in place on every dispatch, so
the record passed to the callback is not a fresh per-dispatch snapshot.  At a
concrete dispatch whose 21 fields all carry the `"??"` sentinel (key text
empty after normalization), parsing from a prior state whose `KeyRune` is
`'a'` yields a different record than parsing from the zero state — and the
callback observes the leftover `KeyRune = 'a'` from the earlier dispatch. -/
theorem claim2_counterexample :
    Event.parser (fun _ => none) staleKeyEvent qq21 ≠
      Event.parser (fun _ => none) zeroEvent qq21 ∧
    (Event.parser (fun _ => none) staleKeyEvent qq21).map Event.KeyRune =
      some 0x61 ∧
    (Event.parser (fun _ => none) zeroEvent qq21).map Event.KeyRune = some 0 :=
  ⟨by decide, by decide, by decide⟩

/-- C2 amended: the `Event` record is allocated once per binding and reused
across dispatches.  Each dispatch overwrites every field except `KeyRune`
from the current 21 substitution values, so two dispatches of the same
binding from different prior states agree on every field but `KeyRune`; when
the current dispatch's normalized key-text field is empty, `KeyRune` retains
the value left by the earlier dispatch, and only when it is non-empty is
`KeyRune` freshly decoded (making the result independent of prior state). -/
theorem claim2_amended (fw : GoStr → Option Nat) (e e' : Event)
    (args : List GoStr) (h : args.length = 21) :
    ∃ r r', Event.parser fw e args = some r ∧ Event.parser fw e' args = some r' ∧
      r = { r' with KeyRune := r.KeyRune } ∧
      (Event.toString (args.getD 10 []) = [] → r.KeyRune = e.KeyRune) ∧
      (Event.toString (args.getD 10 []) ≠ [] →
        r.KeyRune = (decodeRuneInString (Event.toString (args.getD 10 []))).1 ∧
        r'.KeyRune = r.KeyRune) := by
  simp only [Event.parser, List.getD, List.get?_eq_getElem?,
    if_neg (show ¬ args.length < 21 by omega)]
  refine ⟨_, _, rfl, rfl, rfl, fun h10 => ?_, fun h10 => ?_⟩
  · simp [h10]
  · simp [h10]

/-- Witness for C2 (amended) at a concrete 21-field array whose key-text
field is non-empty. -/
theorem claim2_witness :
    ∃ r r', Event.parser (fun _ => none) staleKeyEvent badKeyArgs = some r ∧
      Event.parser (fun _ => none) zeroEvent badKeyArgs = some r' ∧
      r = { r' with KeyRune := r.KeyRune } ∧
      (Event.toString (badKeyArgs.getD 10 []) = [] → r.KeyRune = staleKeyEvent.KeyRune) ∧
      (Event.toString (badKeyArgs.getD 10 []) ≠ [] →
        r.KeyRune = (decodeRuneInString (Event.toString (badKeyArgs.getD 10 []))).1 ∧
        r'.KeyRune = r.KeyRune) :=
  claim2_amended (fun _ => none) staleKeyEvent zeroEvent badKeyArgs (by decide)

/-! ## C9: LoadImage routing -/

/-- C9: `LoadImage` on the empty path fails immediately with the
invalid-argument error and touches neither the filesystem nor the
interpreter (empty operation trace); on a path with extension `".gif"` it
takes the native-loader path, appending the path as a `file` creation option
and performing no local open or decode; on a path with any other extension it
opens and decodes the file locally and, on decode success, pushes the decoded
buffer into the freshly created photo object; open and decode failures
propagate as-is. -/
theorem claim9_loadimage_routes (osOpen : GoStr → Except Nat Nat)
    (imageDecode : Nat → Except Nat Nat) (newImage : List ImageOpt → Option Nat)
    (file : GoStr) (opts : List ImageOpt) (hne : file ≠ []) :
    (∀ opts', LoadImage osOpen imageDecode newImage [] opts' =
      ([], .error .osErrInvalid)) ∧
    (goFilepathExt file = gifExt →
      (∀ pid, newImage (opts ++ [⟨fileKey, file⟩]) = some pid →
        LoadImage osOpen imageDecode newImage file opts =
          ([.createPhoto (opts ++ [⟨fileKey, file⟩])], .ok pid)) ∧
      (newImage (opts ++ [⟨fileKey, file⟩]) = none →
        LoadImage osOpen imageDecode newImage file opts =
          ([.createPhoto (opts ++ [⟨fileKey, file⟩])], .error .newImageFailed))) ∧
    (goFilepathExt file ≠ gifExt →
      (∀ e, osOpen file = .error e →
        LoadImage osOpen imageDecode newImage file opts =
          ([.openFile file], .error (.openErr e))) ∧
      (∀ fh e, osOpen file = .ok fh → imageDecode fh = .error e →
        LoadImage osOpen imageDecode newImage file opts =
          ([.openFile file, .decodeFile fh], .error (.decodeErr e))) ∧
      (∀ fh img pid, osOpen file = .ok fh → imageDecode fh = .ok img →
        newImage opts = some pid →
        LoadImage osOpen imageDecode newImage file opts =
          ([.openFile file, .decodeFile fh, .createPhoto opts, .putImage img],
            .ok pid))) := by
  refine ⟨fun opts' => rfl, fun hgif => ⟨fun pid hpid => ?_, fun hnone => ?_⟩,
    fun hnot => ⟨fun e he => ?_, fun fh e hfh hdec => ?_,
      fun fh img pid hfh hdec hpid => ?_⟩⟩
  · simp [LoadImage, hne, hgif, hpid]
  · simp [LoadImage, hne, hgif, hnone]
  · simp [LoadImage, hne, hnot, he]
  · simp [LoadImage, hne, hnot, hfh, hdec]
  · simp [LoadImage, hne, hnot, hfh, hdec, hpid]

/-- Witness for C9: concrete oracles, exercising the `.gif` native-loader
route at `"a.gif"` and the local decode-then-put route at `"a.png"`. -/
theorem claim9_witness :
    LoadImage (fun _ => .ok 1) (fun _ => .ok 2) (fun _ => some 3) gifFile [] =
      ([.createPhoto [⟨fileKey, gifFile⟩]], .ok 3) ∧
    LoadImage (fun _ => .ok 1) (fun _ => .ok 2) (fun _ => some 3) pngFile [] =
      ([.openFile pngFile, .decodeFile 1, .createPhoto [], .putImage 2], .ok 3) :=
  ⟨((claim9_loadimage_routes (fun _ => .ok 1) (fun _ => .ok 2) (fun _ => some 3)
      gifFile [] (by decide)).2.1 (by decide)).1 3 rfl,
   ((claim9_loadimage_routes (fun _ => .ok 1) (fun _ => .ok 2) (fun _ => some 3)
      pngFile [] (by decide)).2.2 (by decide)).2.2 1 2 3 rfl rfl rfl⟩

/-! ## C3: KeyRune decoding — helper lemmas on the UTF-8 decoder -/

lemma decode_utf8Encode (c : Nat) (rest : GoStr) (hv : ValidCP c) :
    decodeRuneInString (utf8Encode c ++ rest) = (c, (utf8Encode c).length) := by
  obtain ⟨hle, hsur⟩ := hv
  rw [utf8Encode]
  by_cases h1 : c ≤ 0x7F
  · rw [if_pos h1]
    simp only [List.cons_append, List.nil_append, decodeRuneInString, if_pos h1,
      List.length_singleton]
  · rw [if_neg h1]
    by_cases h2 : c ≤ 0x7FF
    · rw [if_pos h2]
      simp only [List.cons_append, List.nil_append, decodeRuneInString]
      rw [if_neg (by omega), if_pos (by omega : 0xC2 ≤ 0xC0 + c / 64 ∧ 0xC0 + c / 64 ≤ 0xDF),
        if_pos (by omega : 0x80 ≤ 0x80 + c % 64 ∧ 0x80 + c % 64 ≤ 0xBF)]
      have : (0xC0 + c / 64 - 0xC0) * 64 + (0x80 + c % 64 - 0x80) = c := by omega
      rw [this]
      rfl
    · rw [if_neg h2]
      by_cases h3 : c ≤ 0xFFFF
      · rw [if_pos h3]
        simp only [List.cons_append, List.nil_append, decodeRuneInString]
        rw [if_neg (by omega), if_neg (by omega), if_pos (by omega :
          0xE0 ≤ 0xE0 + c / 4096 ∧ 0xE0 + c / 4096 ≤ 0xEF)]
        have hb1 : (if 0xE0 + c / 4096 = 0xE0 then 0xA0 else 0x80) ≤ 0x80 + c / 64 % 64 ∧
            0x80 + c / 64 % 64 ≤ (if 0xE0 + c / 4096 = 0xED then 0x9F else 0xBF) := by
          constructor
          · split <;> omega
          · split <;> omega
        rw [if_pos hb1, if_pos (by omega : 0x80 ≤ 0x80 + c % 64 ∧ 0x80 + c % 64 ≤ 0xBF)]
        have : (0xE0 + c / 4096 - 0xE0) * 4096 + (0x80 + c / 64 % 64 - 0x80) * 64 +
            (0x80 + c % 64 - 0x80) = c := by omega
        rw [this]
        rfl
      · rw [if_neg h3]
        simp only [List.cons_append, List.nil_append, decodeRuneInString]
        rw [if_neg (by omega), if_neg (by omega), if_neg (by omega), if_pos (by omega :
          0xF0 ≤ 0xF0 + c / 262144 ∧ 0xF0 + c / 262144 ≤ 0xF4)]
        have hb1 : (if 0xF0 + c / 262144 = 0xF0 then 0x90 else 0x80) ≤
            0x80 + c / 4096 % 64 ∧
            0x80 + c / 4096 % 64 ≤ (if 0xF0 + c / 262144 = 0xF4 then 0x8F else 0xBF) := by
          constructor
          · split <;> omega
          · split <;> omega
        rw [if_pos hb1, if_pos (by omega : 0x80 ≤ 0x80 + c / 64 % 64 ∧ 0x80 + c / 64 % 64 ≤ 0xBF),
          if_pos (by omega : 0x80 ≤ 0x80 + c % 64 ∧ 0x80 + c % 64 ≤ 0xBF)]
        have : (0xF0 + c / 262144 - 0xF0) * 262144 + (0x80 + c / 4096 % 64 - 0x80) * 4096 +
            (0x80 + c / 64 % 64 - 0x80) * 64 + (0x80 + c % 64 - 0x80) = c := by omega
        rw [this]
        rfl

lemma decode_sound (s : GoStr) (hne : s ≠ []) :
    (∃ c rest, ValidCP c ∧ s = utf8Encode c ++ rest ∧
      decodeRuneInString s = (c, (utf8Encode c).length)) ∨
    decodeRuneInString s = (runeError, 1) := by
  rcases s with _ | ⟨b0, t⟩
  · exact absurd rfl hne
  by_cases h1 : b0 ≤ 0x7F
  · refine Or.inl ⟨b0, t, ⟨by omega, by omega⟩, ?_, ?_⟩
    · rw [utf8Encode, if_pos h1]
      rfl
    · rw [utf8Encode, if_pos h1]
      simp only [decodeRuneInString, if_pos h1, List.length_singleton]
  · by_cases h2 : 0xC2 ≤ b0 ∧ b0 ≤ 0xDF
    · rcases t with _ | ⟨b1, t2⟩
      · right
        simp only [decodeRuneInString]
        rw [if_neg h1, if_pos h2]
      · by_cases h3 : 0x80 ≤ b1 ∧ b1 ≤ 0xBF
        · refine Or.inl ⟨(b0 - 0xC0) * 64 + (b1 - 0x80), t2, ⟨by omega, by omega⟩, ?_, ?_⟩
          · rw [utf8Encode, if_neg (by omega), if_pos (by omega)]
            have e0 : 0xC0 + ((b0 - 0xC0) * 64 + (b1 - 0x80)) / 64 = b0 := by omega
            have e1 : 0x80 + ((b0 - 0xC0) * 64 + (b1 - 0x80)) % 64 = b1 := by omega
            rw [e0, e1]
            rfl
          · rw [utf8Encode, if_neg (by omega), if_pos (by omega)]
            simp only [decodeRuneInString]
            rw [if_neg h1, if_pos h2, if_pos h3]
            rfl
        · right
          simp only [decodeRuneInString]
          rw [if_neg h1, if_pos h2, if_neg h3]
    · by_cases h4 : 0xE0 ≤ b0 ∧ b0 ≤ 0xEF
      · rcases t with _ | ⟨b1, t2⟩
        · right
          simp only [decodeRuneInString]
          rw [if_neg h1, if_neg h2, if_pos h4]
        · by_cases h5 : (if b0 = 0xE0 then 0xA0 else 0x80) ≤ b1 ∧
              b1 ≤ (if b0 = 0xED then 0x9F else 0xBF)
          · rcases t2 with _ | ⟨b2, t3⟩
            · right
              simp only [decodeRuneInString]
              rw [if_neg h1, if_neg h2, if_pos h4, if_pos h5]
            · by_cases h6 : 0x80 ≤ b2 ∧ b2 ≤ 0xBF
              · refine Or.inl ⟨(b0 - 0xE0) * 4096 + (b1 - 0x80) * 64 + (b2 - 0x80), t3,
                  ⟨by rcases h5 with ⟨h5a, h5b⟩; split_ifs at h5a h5b <;> omega,
                   by rcases h5 with ⟨h5a, h5b⟩; split_ifs at h5a h5b <;> omega⟩, ?_, ?_⟩
                · rw [utf8Encode,
                    if_neg (by rcases h5 with ⟨h5a, h5b⟩; split_ifs at h5a h5b <;> omega),
                    if_neg (by rcases h5 with ⟨h5a, h5b⟩; split_ifs at h5a h5b <;> omega),
                    if_pos (by rcases h5 with ⟨h5a, h5b⟩; split_ifs at h5a h5b <;> omega)]
                  have e0 : 0xE0 + ((b0 - 0xE0) * 4096 + (b1 - 0x80) * 64 + (b2 - 0x80)) /
                      4096 = b0 := by
                    rcases h5 with ⟨h5a, h5b⟩; split_ifs at h5a h5b <;> omega
                  have e1 : 0x80 + ((b0 - 0xE0) * 4096 + (b1 - 0x80) * 64 + (b2 - 0x80)) /
                      64 % 64 = b1 := by
                    rcases h5 with ⟨h5a, h5b⟩; split_ifs at h5a h5b <;> omega
                  have e2 : 0x80 + ((b0 - 0xE0) * 4096 + (b1 - 0x80) * 64 + (b2 - 0x80)) %
                      64 = b2 := by
                    rcases h5 with ⟨h5a, h5b⟩; split_ifs at h5a h5b <;> omega
                  rw [e0, e1, e2]
                  rfl
                · rw [utf8Encode,
                    if_neg (by rcases h5 with ⟨h5a, h5b⟩; split_ifs at h5a h5b <;> omega),
                    if_neg (by rcases h5 with ⟨h5a, h5b⟩; split_ifs at h5a h5b <;> omega),
                    if_pos (by rcases h5 with ⟨h5a, h5b⟩; split_ifs at h5a h5b <;> omega)]
                  simp only [decodeRuneInString]
                  rw [if_neg h1, if_neg h2, if_pos h4, if_pos h5, if_pos h6]
                  rfl
              · right
                simp only [decodeRuneInString]
                rw [if_neg h1, if_neg h2, if_pos h4, if_pos h5, if_neg h6]
          · right
            simp only [decodeRuneInString]
            rw [if_neg h1, if_neg h2, if_pos h4, if_neg h5]
      · by_cases h7 : 0xF0 ≤ b0 ∧ b0 ≤ 0xF4
        · rcases t with _ | ⟨b1, t2⟩
          · right
            simp only [decodeRuneInString]
            rw [if_neg h1, if_neg h2, if_neg h4, if_pos h7]
          · by_cases h8 : (if b0 = 0xF0 then 0x90 else 0x80) ≤ b1 ∧
                b1 ≤ (if b0 = 0xF4 then 0x8F else 0xBF)
            · rcases t2 with _ | ⟨b2, t3⟩
              · right
                simp only [decodeRuneInString]
                rw [if_neg h1, if_neg h2, if_neg h4, if_pos h7, if_pos h8]
              · by_cases h9 : 0x80 ≤ b2 ∧ b2 ≤ 0xBF
                · rcases t3 with _ | ⟨b3, t4⟩
                  · right
                    simp only [decodeRuneInString]
                    rw [if_neg h1, if_neg h2, if_neg h4, if_pos h7, if_pos h8, if_pos h9]
                  · by_cases h10 : 0x80 ≤ b3 ∧ b3 ≤ 0xBF
                    · refine Or.inl ⟨(b0 - 0xF0) * 262144 + (b1 - 0x80) * 4096 +
                        (b2 - 0x80) * 64 + (b3 - 0x80), t4,
                        ⟨by rcases h8 with ⟨h8a, h8b⟩; split_ifs at h8a h8b <;> omega,
                         by rcases h8 with ⟨h8a, h8b⟩; split_ifs at h8a h8b <;> omega⟩, ?_, ?_⟩
                      · rw [utf8Encode,
                          if_neg (by rcases h8 with ⟨h8a, h8b⟩; split_ifs at h8a h8b <;> omega),
                          if_neg (by rcases h8 with ⟨h8a, h8b⟩; split_ifs at h8a h8b <;> omega),
                          if_neg (by rcases h8 with ⟨h8a, h8b⟩; split_ifs at h8a h8b <;> omega)]
                        have e0 : 0xF0 + ((b0 - 0xF0) * 262144 + (b1 - 0x80) * 4096 +
                            (b2 - 0x80) * 64 + (b3 - 0x80)) / 262144 = b0 := by
                          rcases h8 with ⟨h8a, h8b⟩; split_ifs at h8a h8b <;> omega
                        have e1 : 0x80 + ((b0 - 0xF0) * 262144 + (b1 - 0x80) * 4096 +
                            (b2 - 0x80) * 64 + (b3 - 0x80)) / 4096 % 64 = b1 := by
                          rcases h8 with ⟨h8a, h8b⟩; split_ifs at h8a h8b <;> omega
                        have e2 : 0x80 + ((b0 - 0xF0) * 262144 + (b1 - 0x80) * 4096 +
                            (b2 - 0x80) * 64 + (b3 - 0x80)) / 64 % 64 = b2 := by
                          rcases h8 with ⟨h8a, h8b⟩; split_ifs at h8a h8b <;> omega
                        have e3 : 0x80 + ((b0 - 0xF0) * 262144 + (b1 - 0x80) * 4096 +
                            (b2 - 0x80) * 64 + (b3 - 0x80)) % 64 = b3 := by
                          rcases h8 with ⟨h8a, h8b⟩; split_ifs at h8a h8b <;> omega
                        rw [e0, e1, e2, e3]
                        rfl
                      · rw [utf8Encode,
                          if_neg (by rcases h8 with ⟨h8a, h8b⟩; split_ifs at h8a h8b <;> omega),
                          if_neg (by rcases h8 with ⟨h8a, h8b⟩; split_ifs at h8a h8b <;> omega),
                          if_neg (by rcases h8 with ⟨h8a, h8b⟩; split_ifs at h8a h8b <;> omega)]
                        simp only [decodeRuneInString]
                        rw [if_neg h1, if_neg h2, if_neg h4, if_pos h7, if_pos h8, if_pos h9,
                          if_pos h10]
                        rfl
                    · right
                      simp only [decodeRuneInString]
                      rw [if_neg h1, if_neg h2, if_neg h4, if_pos h7, if_pos h8, if_pos h9,
                        if_neg h10]
                · right
                  simp only [decodeRuneInString]
                  rw [if_neg h1, if_neg h2, if_neg h4, if_pos h7, if_pos h8, if_neg h9]
            · right
              simp only [decodeRuneInString]
              rw [if_neg h1, if_neg h2, if_neg h4, if_pos h7, if_neg h8]
        · right
          simp only [decodeRuneInString]
          rw [if_neg h1, if_neg h2, if_neg h4, if_neg h7]

/-- C3 refuted as stated: at a concrete 21-field array whose key-text field
is the single byte 0xFF — which is not a prefix of any valid UTF-8 encoding —
the parser sets `KeyRune` to U+FFFD (`utf8.RuneError`), not to the zero
rune. -/
theorem claim3_counterexample :
    (Event.parser (fun _ => none) zeroEvent badKeyArgs).map Event.KeyRune =
      some 0xFFFD ∧
    (0xFFFD : Nat) ≠ 0 ∧
    Event.toString (badKeyArgs.getD 10 []) = [0xFF] ∧
    ¬ ∃ c rest, ValidCP c ∧ ([0xFF] : GoStr) = utf8Encode c ++ rest := by
  refine ⟨by decide, by decide, by decide, ?_⟩
  rintro ⟨c, rest, ⟨hle, hsur⟩, henc⟩
  rw [utf8Encode] at henc
  by_cases h1 : c ≤ 0x7F
  · rw [if_pos h1] at henc
    simp only [List.cons_append, List.nil_append, List.cons.injEq] at henc
    omega
  · rw [if_neg h1] at henc
    by_cases h2 : c ≤ 0x7FF
    · rw [if_pos h2] at henc
      simp at henc
    · rw [if_neg h2] at henc
      by_cases h3 : c ≤ 0xFFFF
      · rw [if_pos h3] at henc
        simp at henc
      · rw [if_neg h3] at henc
        simp at henc

/-- C3 amended: for every 21-field substitution array whose key-text field is
non-empty after `"??"`-normalization, the parser sets `KeyRune` to the result
of `utf8.DecodeRuneInString` on that field: when the field begins with the
UTF-8 encoding of a Unicode scalar value the decoded `KeyRune` is exactly
that first code point, and when it does not (the field is not valid UTF-8)
`KeyRune` is U+FFFD, the replacement character `utf8.RuneError` — not the
zero rune. -/
theorem claim3_amended :
    (∀ c rest, ValidCP c → (decodeRuneInString (utf8Encode c ++ rest)).1 = c) ∧
    (∀ s : GoStr, s ≠ [] → (¬ ∃ c rest, ValidCP c ∧ s = utf8Encode c ++ rest) →
      (decodeRuneInString s).1 = runeError) ∧
    (∀ (fw : GoStr → Option Nat) (e : Event) (args : List GoStr) (r : Event),
      Event.parser fw e args = some r →
      Event.toString (args.getD 10 []) ≠ [] →
      r.KeyRune = (decodeRuneInString (Event.toString (args.getD 10 []))).1) := by
  refine ⟨fun c rest hv => by rw [decode_utf8Encode c rest hv],
    fun s hne hno => ?_, fun fw e args r hr h10 => ?_⟩
  · rcases decode_sound s hne with ⟨c, rest, hv, henc, _⟩ | hre
    · exact absurd ⟨c, rest, hv, henc⟩ hno
    · rw [hre]
  · by_cases hlen : args.length < 21
    · rw [Event.parser, if_pos hlen] at hr
      exact absurd hr (by simp)
    · simp only [Event.parser, if_neg hlen] at hr
      cases hr
      simp only [List.getD, List.get?_eq_getElem?] at h10
      simp [h10]

/-- Witness for C3 (amended): decoding the UTF-8 encoding of U+2713
recovers exactly that code point. -/
theorem claim3_witness :
    (decodeRuneInString (utf8Encode 0x2713 ++ [])).1 = 0x2713 :=
  claim3_amended.1 0x2713 [] (by decide)

/-! ## C4: numeric field parsing — helper lemmas on the ParseInt model -/

lemma le_foldl_step (l : GoStr) :
    ∀ n : Nat, n ≤ l.foldl (fun m c => m * 10 + (c - 0x30)) n := by
  induction l with
  | nil => intro n; simp
  | cons c t ih =>
    intro n
    rw [List.foldl_cons]
    exact le_trans (by omega) (ih (n * 10 + (c - 0x30)))

lemma parseUintLoop_digits (l : GoStr) :
    ∀ n : Nat, (∀ c ∈ l, isDigit c = true) → n ≤ maxUint64 →
      parseUintLoop l n =
        if l.foldl (fun m c => m * 10 + (c - 0x30)) n ≤ maxUint64
        then (l.foldl (fun m c => m * 10 + (c - 0x30)) n, none)
        else (maxUint64, some .rangeErr) := by
  induction l with
  | nil =>
    intro n _ hn
    simp [parseUintLoop, hn]
  | cons c t ih =>
    intro n hd hn
    have hcd : 0x30 ≤ c ∧ c ≤ 0x39 := by
      have := hd c (by simp)
      simpa [isDigit] using this
    simp only [parseUintLoop, List.foldl_cons]
    rw [if_pos hcd, if_neg (show ¬ 10 ≤ c - 0x30 by omega)]
    by_cases hcut : parseUintCutoff ≤ n
    · rw [if_pos hcut]
      have hbig := le_foldl_step t (n * 10 + (c - 0x30))
      rw [if_neg (show ¬ t.foldl (fun m c => m * 10 + (c - 0x30)) (n * 10 + (c - 0x30)) ≤
        maxUint64 by simp only [parseUintCutoff, maxUint64] at hcut ⊢; omega)]
    · rw [if_neg hcut]
      by_cases hmax : maxUint64 < n * 10 + (c - 0x30)
      · rw [if_pos hmax]
        have hbig := le_foldl_step t (n * 10 + (c - 0x30))
        rw [if_neg (show ¬ t.foldl (fun m c => m * 10 + (c - 0x30)) (n * 10 + (c - 0x30)) ≤
          maxUint64 by omega)]
      · rw [if_neg hmax]
        exact ih (n * 10 + (c - 0x30)) (fun d hdm => hd d (by simp [hdm])) (by omega)

lemma parseUintLoop_syn (c : Nat) (t : GoStr) (hc : isDigit c = false) (ds : GoStr) :
    ∀ n : Nat, (∀ d ∈ ds, isDigit d = true) →
      ds.foldl (fun m d => m * 10 + (d - 0x30)) n < parseUintCutoff →
      parseUintLoop (ds ++ c :: t) n = (0, some .synErr) := by
  induction ds with
  | nil =>
    intro n _ _
    have hnd : ¬ (0x30 ≤ c ∧ c ≤ 0x39) := by
      simpa [isDigit] using hc
    rw [List.nil_append]
    simp only [parseUintLoop]
    rw [if_neg hnd]
    by_cases halpha : 0x61 ≤ goLower c ∧ goLower c ≤ 0x7A
    · rw [if_pos halpha, if_pos (show 10 ≤ goLower c - 0x61 + 10 by omega)]
    · rw [if_neg halpha, if_pos (show (10 : Nat) ≤ 255 by omega)]
  | cons d ds ih =>
    intro n hds hlt
    have hcd : 0x30 ≤ d ∧ d ≤ 0x39 := by
      have := hds d (by simp)
      simpa [isDigit] using this
    rw [List.foldl_cons] at hlt
    have hfold := le_foldl_step ds (n * 10 + (d - 0x30))
    rw [List.cons_append]
    simp only [parseUintLoop]
    rw [if_pos hcd, if_neg (show ¬ 10 ≤ d - 0x30 by omega),
      if_neg (show ¬ parseUintCutoff ≤ n by omega),
      if_neg (show ¬ maxUint64 < n * 10 + (d - 0x30) by
        simp only [parseUintCutoff, maxUint64] at hlt ⊢; omega)]
    exact ih (n * 10 + (d - 0x30)) (fun x hx => hds x (by simp [hx])) hlt

lemma goParseUint10_digits (r : GoStr) (hne : r ≠ [])
    (hd : ∀ c ∈ r, isDigit c = true) :
    goParseUint10 r =
      if digitsVal r ≤ maxUint64 then (digitsVal r, none)
      else (maxUint64, some .rangeErr) := by
  rw [goParseUint10, if_neg hne]
  exact parseUintLoop_digits r 0 hd (by simp [maxUint64])

lemma goParseUint10_syn (ds : GoStr) (c : Nat) (t : GoStr)
    (hds : ∀ d ∈ ds, isDigit d = true) (hc : isDigit c = false)
    (hlt : digitsVal ds < parseUintCutoff) :
    goParseUint10 (ds ++ c :: t) = (0, some .synErr) := by
  rw [goParseUint10, if_neg (by simp)]
  exact parseUintLoop_syn c t hc ds 0 hds hlt

lemma goParseInt10_stripSign (s : GoStr) (hne : s ≠ []) :
    goParseInt10 s =
      (if (goParseUint10 (stripSign s).2).2 = some .synErr then 0
       else if ¬ (stripSign s).1 ∧ int64Cutoff ≤ (goParseUint10 (stripSign s).2).1
         then (int64Cutoff : Int) - 1
       else if (stripSign s).1 ∧ int64Cutoff < (goParseUint10 (stripSign s).2).1
         then -(int64Cutoff : Int)
       else if (stripSign s).1 then -((goParseUint10 (stripSign s).2).1 : Int)
       else ((goParseUint10 (stripSign s).2).1 : Int)) := by
  rcases s with _ | ⟨c, r⟩
  · exact absurd rfl hne
  by_cases hc1 : c = 0x2B
  · subst hc1
    simp [goParseInt10, stripSign]
  · by_cases hc2 : c = 0x2D
    · subst hc2
      simp [goParseInt10, stripSign]
    · simp [goParseInt10, stripSign, hc1, hc2]

lemma goParseInt10_denotes (s : GoStr) (v : Int) (hden : DenotesInt s v) :
    goParseInt10 s =
      if v < -(9223372036854775808 : Int) then -9223372036854775808
      else if (9223372036854775807 : Int) < v then 9223372036854775807
      else v := by
  obtain ⟨hne2, hdig, hv⟩ := hden
  have hne : s ≠ [] := by
    intro h
    subst h
    exact hne2 rfl
  rw [goParseInt10_stripSign s hne, goParseUint10_digits (stripSign s).2 hne2 hdig]
  rcases (Bool.eq_false_or_eq_true (stripSign s).1).symm with hb | hb
  · rw [hb] at hv
    simp only [Bool.false_eq_true, if_false] at hv
    rw [hb]
    by_cases hd1 : digitsVal (stripSign s).2 ≤ maxUint64
    · rw [if_pos hd1, if_neg (show ¬ ((digitsVal (stripSign s).2, (none : Option NumErr)).2 =
        some NumErr.synErr) by simp)]
      by_cases hd2 : int64Cutoff ≤ digitsVal (stripSign s).2
      · rw [if_pos (show ¬ (false : Bool) = true ∧ int64Cutoff ≤
          (digitsVal (stripSign s).2, (none : Option NumErr)).1 by
            exact ⟨by simp, hd2⟩)]
        simp only [int64Cutoff, maxUint64] at hd2 ⊢
        rw [if_neg (show ¬ v < -(9223372036854775808 : Int) by omega),
          if_pos (show (9223372036854775807 : Int) < v by
            rw [hv]; exact_mod_cast (by omega : (9223372036854775807 : Nat) <
              digitsVal (stripSign s).2))]
        norm_num
      · rw [if_neg (show ¬ (¬ (false : Bool) = true ∧ int64Cutoff ≤
          (digitsVal (stripSign s).2, (none : Option NumErr)).1) by
            rintro ⟨-, hx⟩; exact hd2 hx),
          if_neg (show ¬ ((false : Bool) = true ∧ int64Cutoff <
            (digitsVal (stripSign s).2, (none : Option NumErr)).1) by
            rintro ⟨hx, -⟩; simp at hx),
          if_neg (show ¬ (false : Bool) = true by simp)]
        simp only [int64Cutoff] at hd2
        rw [if_neg (show ¬ v < -(9223372036854775808 : Int) by rw [hv]; omega),
          if_neg (show ¬ (9223372036854775807 : Int) < v by
            rw [hv]; exact_mod_cast (by omega : ¬ (9223372036854775807 : Nat) <
              digitsVal (stripSign s).2))]
        exact hv.symm
    · rw [if_neg hd1, if_neg (show ¬ ((maxUint64, some NumErr.rangeErr).2 =
        some NumErr.synErr) by simp),
        if_pos (show ¬ (false : Bool) = true ∧ int64Cutoff ≤
          (maxUint64, some NumErr.rangeErr).1 by
            exact ⟨by simp, by simp [int64Cutoff, maxUint64]⟩)]
      simp only [int64Cutoff, maxUint64] at hd1 ⊢
      rw [if_neg (show ¬ v < -(9223372036854775808 : Int) by rw [hv]; omega),
        if_pos (show (9223372036854775807 : Int) < v by
          rw [hv]; exact_mod_cast (by omega : (9223372036854775807 : Nat) <
            digitsVal (stripSign s).2))]
      norm_num
  · rw [hb] at hv
    simp at hv
    rw [hb]
    by_cases hd1 : digitsVal (stripSign s).2 ≤ maxUint64
    · rw [if_pos hd1, if_neg (show ¬ ((digitsVal (stripSign s).2, (none : Option NumErr)).2 =
        some NumErr.synErr) by simp)]
      rw [if_neg (show ¬ (¬ (true : Bool) = true ∧ int64Cutoff ≤
        (digitsVal (stripSign s).2, (none : Option NumErr)).1) by
          rintro ⟨hx, -⟩; exact hx rfl)]
      by_cases hd2 : int64Cutoff < digitsVal (stripSign s).2
      · rw [if_pos (show (true : Bool) = true ∧ int64Cutoff <
          (digitsVal (stripSign s).2, (none : Option NumErr)).1 from ⟨rfl, hd2⟩)]
        simp only [int64Cutoff] at hd2
        rw [if_pos (show v < -(9223372036854775808 : Int) by
          rw [hv]
          have : (9223372036854775808 : Int) < (digitsVal (stripSign s).2 : Int) := by
            exact_mod_cast hd2
          omega)]
        simp [int64Cutoff]
      · rw [if_neg (show ¬ ((true : Bool) = true ∧ int64Cutoff <
          (digitsVal (stripSign s).2, (none : Option NumErr)).1) by
            rintro ⟨-, hx⟩; exact hd2 hx),
          if_pos (show (true : Bool) = true from rfl)]
        simp only [int64Cutoff] at hd2
        rw [if_neg (show ¬ v < -(9223372036854775808 : Int) by
            rw [hv]
            have : (digitsVal (stripSign s).2 : Int) ≤ 9223372036854775808 := by
              exact_mod_cast (by omega : digitsVal (stripSign s).2 ≤ 9223372036854775808)
            omega),
          if_neg (show ¬ (9223372036854775807 : Int) < v by
            rw [hv]
            have : (0 : Int) ≤ (digitsVal (stripSign s).2 : Int) := by positivity
            omega)]
        exact hv.symm
    · rw [if_neg hd1, if_neg (show ¬ ((maxUint64, some NumErr.rangeErr).2 =
        some NumErr.synErr) by simp),
        if_neg (show ¬ (¬ (true : Bool) = true ∧ int64Cutoff ≤
          (maxUint64, some NumErr.rangeErr).1) by rintro ⟨hx, -⟩; exact hx rfl),
        if_pos (show (true : Bool) = true ∧ int64Cutoff <
          (maxUint64, some NumErr.rangeErr).1 from
            ⟨rfl, by simp [int64Cutoff, maxUint64]⟩)]
      simp only [maxUint64] at hd1
      rw [if_pos (show v < -(9223372036854775808 : Int) by
        rw [hv]
        have : (9223372036854775808 : Int) < (digitsVal (stripSign s).2 : Int) := by
          exact_mod_cast (by omega : (9223372036854775808 : Nat) <
            digitsVal (stripSign s).2)
        omega)]
      simp [int64Cutoff]

/-- C4 refuted as stated: the twenty-`'9'` string is a well-formed decimal
numeral whose value exceeds the 64-bit signed range, so `strconv.ParseInt`
fails on it — yet `Event.toInt` yields the saturated boundary
9223372036854775807, not zero. -/
theorem claim4_counterexample :
    Event.toInt twentyNines = 9223372036854775807 ∧
    (9223372036854775807 : Int) ≠ 0 ∧
    DenotesInt twentyNines 99999999999999999999 ∧
    (9223372036854775807 : Int) < 99999999999999999999 :=
  ⟨by decide, by decide, by decide, by decide⟩

/-- C4 amended: every numeric field of the event parser goes through
`strconv.ParseInt(s, 10, 0)` with the error discarded (`Event.toInt`).  A
well-formed decimal numeral within the 64-bit signed range parses to its
value; a numeral above `2^63 - 1` saturates to `9223372036854775807` and one
below `-2^63` saturates to `-9223372036854775808` — out-of-range input does
not yield zero.  Zero is produced by syntax failures: an empty string or bare
sign, or a non-digit byte reached while the accumulated digit prefix is still
below the overflow cutoff.  In no case is an error surfaced to the caller. -/
theorem claim4_amended :
    (∀ s v, DenotesInt s v → -(9223372036854775808 : Int) ≤ v →
      v ≤ 9223372036854775807 → Event.toInt s = v) ∧
    (∀ s v, DenotesInt s v → (9223372036854775807 : Int) < v →
      Event.toInt s = 9223372036854775807) ∧
    (∀ s v, DenotesInt s v → v < -(9223372036854775808 : Int) →
      Event.toInt s = -9223372036854775808) ∧
    (∀ s, (stripSign s).2 = [] → Event.toInt s = 0) ∧
    (∀ s ds c t, (stripSign s).2 = ds ++ c :: t → (∀ d ∈ ds, isDigit d = true) →
      isDigit c = false → digitsVal ds < parseUintCutoff → Event.toInt s = 0) := by
  refine ⟨fun s v hden hlo hhi => ?_, fun s v hden hhi => ?_, fun s v hden hlo => ?_,
    fun s hempty => ?_, fun s ds c t hsplit hds hc hlt => ?_⟩
  · rw [Event.toInt, goParseInt10_denotes s v hden, if_neg (by omega), if_neg (by omega)]
  · rw [Event.toInt, goParseInt10_denotes s v hden, if_neg (by omega), if_pos hhi]
  · rw [Event.toInt, goParseInt10_denotes s v hden, if_pos hlo]
  · by_cases hs : s = []
    · subst hs
      decide
    · rw [Event.toInt, goParseInt10_stripSign s hs, hempty,
        if_pos (show (goParseUint10 ([] : GoStr)).2 = some NumErr.synErr from rfl)]
  · have hne : s ≠ [] := by
      intro h
      subst h
      rw [show stripSign [] = (false, []) from rfl] at hsplit
      simp at hsplit
    rw [Event.toInt, goParseInt10_stripSign s hne, hsplit,
      goParseUint10_syn ds c t hds hc hlt,
      if_pos (show ((0 : Nat), some NumErr.synErr).2 = some NumErr.synErr from rfl)]

/-- Witness for C4 (amended): the numeral `"-42"` parses to `-42`. -/
theorem claim4_witness : Event.toInt [0x2D, 0x34, 0x32] = -42 :=
  claim4_amended.1 [0x2D, 0x34, 0x32] (-42) (by decide) (by decide) (by decide)

end Atk
